import Mathlib

/-!
Verification development for the PubMed paper fetcher
(`pubmed_paper_fetcher/fetcher.py`, `pubmed_paper_fetcher/utils.py`).

The shallow embedding below translates the repository's Python functions
into executable Lean definitions:

* `is_non_academic_affiliation` embeds `utils.is_non_academic_affiliation`
  (lowercase the text, Python `in`-substring tests against two fixed
  keyword lists, non-academic present and academic absent).
* `findEmail` embeds `re.search(r"[\w\.-]+@[\w\.-]+", aff_text)` followed
  by `match.group(0)`: leftmost match of one-or-more word/dot/dash
  characters, an `@`, and one-or-more word/dot/dash characters.
* `fetch_paper_details` embeds the extraction loop of `fetcher.py`
  (title and date defaults, the author/affiliation double loop with its
  three accumulators, `set(...)` modelled as `List.dedup`).
* `fetch_papers` embeds the pipeline: the external search and fetch
  services are oracle parameters; a fetch failure (any exception caught
  by the `try/except` around `fetch_paper_details`, including malformed
  nested structure) is the oracle returning `none`.  The `debug` flag
  only selects the logging level, returned alongside the papers.
-/

/-- One entry of an author's `AffiliationInfo` list: `aff.get("Affiliation", "")`
reads an optional string field. -/
structure AffiliationInfo where
  affiliation : Option String
deriving DecidableEq

/-- One entry of the `AuthorList`: optional `ForeName`, optional `LastName`,
and the optional `AffiliationInfo` list (`if "AffiliationInfo" in author`). -/
structure AuthorEntry where
  foreName : Option String
  lastName : Option String
  affiliationInfo : Option (List AffiliationInfo)
deriving DecidableEq

/-- The `PubDate` sub-structure: each of `Year`, `Month`, `Day` is read with
`.get(_, "")`, so each is optional. -/
structure PubDate where
  year : Option String
  month : Option String
  day : Option String
deriving DecidableEq

/-- The part of a raw PubMed record that `fetch_paper_details` reads after
destructuring `record["PubmedArticle"][0]["MedlineCitation"]["Article"]`:
the title, the `Journal/JournalIssue/PubDate` chain (absence at any level
of the `.get(_, {})` chain is `none` here), and the author list. -/
structure RawCitation where
  articleTitle : Option String
  pubDate : Option PubDate
  authorList : Option (List AuthorEntry)
deriving DecidableEq

/-- The dictionary returned by `fetch_paper_details`.  The Python code joins
`set(non_academic_authors)` and `set(company_affiliations)` into strings;
here the two set-valued fields are kept as deduplicated lists
(`List.dedup`), and `joinComma` below reproduces the `", ".join`. -/
structure PaperSummary where
  pubmedID : String
  title : String
  publicationDate : String
  nonAcademicAuthors : List String
  companyAffiliations : List String
  correspondingEmail : String
deriving DecidableEq

/-- Python `sub in hay` on lists of characters: `needle` occurs as a
contiguous substring of the haystack. -/
def occursIn (needle : List Char) : List Char → Bool
  | [] => needle.isEmpty
  | c :: t => needle.isPrefixOf (c :: t) || occursIn needle t

/-- Python `str.lower()` (per-character lowercasing). -/
def strLower (s : String) : String := ⟨s.data.map Char.toLower⟩

/-- Python `keyword in affiliation` substring test on strings. -/
def strContainsSub (hay sub : String) : Bool := occursIn sub.data hay.data

/-- The fixed non-academic keyword list of `utils.is_non_academic_affiliation`. -/
def non_academic_keywords : List String :=
  ["pharma", "biotech", "inc", "ltd", "llc", "gmbh", "corp", "co", "industries",
   "solutions", "company", "laboratories", "lab", "research institute"]

/-- The fixed academic keyword list of `utils.is_non_academic_affiliation`. -/
def academic_keywords : List String :=
  ["university", "college", "school", "institute of technology", "faculty",
   "dept", "department", "hospital", "center", "centre", "academy"]

/-- Embeds `utils.is_non_academic_affiliation`: lowercase the affiliation,
return `any(k in aff for k in non_academic_keywords) and
not any(k in aff for k in academic_keywords)`. -/
def is_non_academic_affiliation (affiliation : String) : Bool :=
  let aff := strLower affiliation
  (non_academic_keywords.any fun k => strContainsSub aff k) &&
  !(academic_keywords.any fun k => strContainsSub aff k)

/-- The character class `[\w\.-]` of the email pattern, for ASCII text:
word characters (letters, digits, underscore), dot, dash. -/
def isEmailChar (c : Char) : Bool :=
  c.isAlphanum || c = '_' || c = '.' || c = '-'

/-- Leftmost match of `[\w\.-]+@[\w\.-]+` in a character list, as
`re.search` finds it: try each start position left to right; at a class
character, the greedy first group runs to the first non-class character,
which must be `@` and be followed by at least one class character (since
`@` is not in the class, backtracking inside the first group cannot help). -/
def findEmailAux : List Char → Option (List Char)
  | [] => none
  | c :: rest =>
    if isEmailChar c then
      match (c :: rest).dropWhile isEmailChar with
      | '@' :: rest2 =>
        let dom := rest2.takeWhile isEmailChar
        if dom.isEmpty then findEmailAux rest
        else some (((c :: rest).takeWhile isEmailChar) ++ '@' :: dom)
      | _ => findEmailAux rest
    else findEmailAux rest

/-- Embeds `re.search(r"[\w\.-]+@[\w\.-]+", aff_text)` with `.group(0)`:
`some` of the matched text, or `none` when the pattern does not occur. -/
def findEmail (s : String) : Option String :=
  (findEmailAux s.data).map fun cs => ⟨cs⟩

/-- Python `str.strip()`: drop whitespace from both ends. -/
def strTrim (s : String) : String :=
  ⟨((s.data.dropWhile Char.isWhitespace).reverse.dropWhile Char.isWhitespace).reverse⟩

/-- The author display name: `f"{author.get('ForeName', '')} {author.get('LastName', '')}".strip()`. -/
def authorName (author : AuthorEntry) : String :=
  strTrim ((author.foreName.getD "") ++ " " ++ (author.lastName.getD ""))

/-- The three mutable accumulators of the extraction loop:
`non_academic_authors`, `company_affiliations`, `corresponding_email`. -/
structure ExtractAcc where
  names : List String
  affs : List String
  email : String
deriving DecidableEq

/-- One iteration of the inner `for aff in affiliations` loop: read
`aff.get("Affiliation", "")`; when it classifies non-academic, append the
author name and the affiliation text and, when the email pattern matches,
overwrite `corresponding_email` with the match. -/
def stepAff (author : AuthorEntry) (acc : ExtractAcc) (info : AffiliationInfo) : ExtractAcc :=
  let aff_text := info.affiliation.getD ""
  if is_non_academic_affiliation aff_text then
    { names := acc.names ++ [authorName author]
      affs := acc.affs ++ [aff_text]
      email :=
        match findEmail aff_text with
        | some m => m
        | none => acc.email }
  else acc

/-- One iteration of the outer `for author in authors` loop:
`if "AffiliationInfo" in author`, fold over its entries. -/
def processAuthor (acc : ExtractAcc) (author : AuthorEntry) : ExtractAcc :=
  match author.affiliationInfo with
  | none => acc
  | some l => l.foldl (stepAff author) acc

/-- Embeds `fetcher.fetch_paper_details` after the network fetch:
title default, the `Year-Month-Day` date string with empty defaults, the
author/affiliation loop, and `set(...)` (as `List.dedup`) on the two
accumulated lists. -/
def fetch_paper_details (raw : RawCitation) (pmid : String) : PaperSummary :=
  let title := raw.articleTitle.getD ""
  let pub_date := raw.pubDate.getD { year := none, month := none, day := none }
  let date_str := (pub_date.year.getD "") ++ "-" ++ (pub_date.month.getD "") ++ "-" ++ (pub_date.day.getD "")
  let authors := raw.authorList.getD []
  let acc := authors.foldl processAuthor { names := [], affs := [], email := "" }
  { pubmedID := pmid
    title := title
    publicationDate := date_str
    nonAcademicAuthors := acc.names.dedup
    companyAffiliations := acc.affs.dedup
    correspondingEmail := acc.email }

/-- Python `", ".join` on a list of strings. -/
def joinComma : List String → String
  | [] => ""
  | [x] => x
  | x :: y :: t => x ++ ", " ++ joinComma (y :: t)

/-- The logging level selected by `fetch_papers` from its `debug` flag. -/
inductive LogLevel where
  | debug
  | info
deriving DecidableEq

/-- One iteration of the pipeline loop for one identifier: the fetch
oracle returns `none` when `fetch_paper_details(pmid)` raises (the
`except` branch logs and skips); on success the summary is kept only when
the joined `Non-academic Author(s)` field is truthy (non-empty). -/
def summarize (fetchSvc : String → Option RawCitation) (pmid : String) :
    Option PaperSummary :=
  match fetchSvc pmid with
  | none => none
  | some raw =>
    let paper := fetch_paper_details raw pmid
    if joinComma paper.nonAcademicAuthors = "" then none else some paper

/-- Embeds `fetcher.fetch_papers`: configure the logging level from
`debug`, run the search service, then process each identifier in order,
skipping failures.  Returns the logging level together with the retained
summaries (the level is the only effect of `debug`). -/
def fetch_papers (searchSvc : String → List String)
    (fetchSvc : String → Option RawCitation) (query : String) (debug : Bool) :
    LogLevel × List PaperSummary :=
  let level := if debug then LogLevel.debug else LogLevel.info
  let pmids := searchSvc query
  (level, pmids.filterMap (summarize fetchSvc))

/-! ### Spec-side derived views of a raw record -/

/-- The affiliation texts of one `AffiliationInfo` list, in order. -/
def affTextsOf (l : List AffiliationInfo) : List String :=
  l.map fun i => i.affiliation.getD ""

/-- The affiliation texts the extraction loop scans for one author. -/
def authorAffTexts (a : AuthorEntry) : List String :=
  match a.affiliationInfo with
  | none => []
  | some l => affTextsOf l

/-- The affiliation texts of one author that classify non-academic, in scan order. -/
def qualAffsOf (a : AuthorEntry) : List String :=
  (authorAffTexts a).filter is_non_academic_affiliation

/-- All non-academic affiliation texts of a record, in the loop's scan order. -/
def allQualAffs (raw : RawCitation) : List String :=
  (raw.authorList.getD []).flatMap qualAffsOf

/-- One author-name occurrence per non-academic affiliation, in scan order. -/
def allQualNames (raw : RawCitation) : List String :=
  (raw.authorList.getD []).flatMap fun a => (qualAffsOf a).map fun _ => authorName a

/-- Last-match-wins accumulation: the last element of the list, or the
initial value when the list is empty. -/
def lastWins : List String → String → String
  | [], e => e
  | x :: xs, _ => lastWins xs x

/-- The year segment the extractor renders (empty when absent). -/
def rawYear (raw : RawCitation) : String :=
  (raw.pubDate.getD { year := none, month := none, day := none }).year.getD ""

/-- The month segment the extractor renders (empty when absent). -/
def rawMonth (raw : RawCitation) : String :=
  (raw.pubDate.getD { year := none, month := none, day := none }).month.getD ""

/-- The day segment the extractor renders (empty when absent). -/
def rawDay (raw : RawCitation) : String :=
  (raw.pubDate.getD { year := none, month := none, day := none }).day.getD ""

/-! ### Concrete records and service oracles used as test inputs -/

/-- A record whose single author has two non-academic affiliations, each
holding an embedded email address. -/
def cexC1 : RawCitation :=
  { articleTitle := some "T"
    pubDate := none
    authorList := some [
      { foreName := some "Jane", lastName := some "Doe"
        affiliationInfo := some [
          { affiliation := some "Acme Pharma, a@x.com" },
          { affiliation := some "Beta Biotech, b@y.com" } ] } ] }

/-- A record with one author at a non-academic affiliation. -/
def goodRaw : RawCitation :=
  { articleTitle := some "A study"
    pubDate := some { year := some "2020", month := some "Jan", day := some "1" }
    authorList := some [
      { foreName := some "Jane", lastName := some "Doe"
        affiliationInfo := some [ { affiliation := some "Acme Pharma Inc, Cambridge" } ] } ] }

/-- A record whose single author is academically affiliated. -/
def acadRaw : RawCitation :=
  { articleTitle := some "B study"
    pubDate := none
    authorList := some [
      { foreName := some "Ann", lastName := some "Lee"
        affiliationInfo := some [ { affiliation := some "Dept of Biology, University of X" } ] } ] }

/-- A record with two authors sharing an identical non-academic affiliation. -/
def twoAuthorsRaw : RawCitation :=
  { articleTitle := some "C study"
    pubDate := none
    authorList := some [
      { foreName := some "Jane", lastName := some "Doe"
        affiliationInfo := some [ { affiliation := some "Acme Pharma Inc, Cambridge" } ] },
      { foreName := some "John", lastName := some "Roe"
        affiliationInfo := some [ { affiliation := some "Acme Pharma Inc, Cambridge" } ] } ] }

/-- A record with no fields at all. -/
def noDateRaw : RawCitation :=
  { articleTitle := none, pubDate := none, authorList := none }

/-- A search oracle returning the single identifier `"1"`. -/
def searchOne : String → List String := fun _ => ["1"]

/-- A fetch oracle that always succeeds with `goodRaw`. -/
def fetchGood : String → Option RawCitation := fun _ => some goodRaw

/-- A fetch oracle failing for identifier `"B"` and succeeding with
`goodRaw` otherwise. -/
def fetchSkipB : String → Option RawCitation :=
  fun pmid => if pmid = "B" then none else some goodRaw

/-! ### Helper lemmas -/

theorem lastWins_append (l₁ l₂ : List String) (e : String) :
    lastWins (l₁ ++ l₂) e = lastWins l₂ (lastWins l₁ e) := by
  induction l₁ generalizing e with
  | nil => rfl
  | cons x xs ih => simp [lastWins, ih]

theorem lastWins_eq_getLast? (l : List String) (e : String) :
    lastWins l e = l.getLast?.getD e := by
  induction l generalizing e with
  | nil => rfl
  | cons x xs ih =>
    cases xs with
    | nil => rfl
    | cons y ys =>
      have h : (y :: ys).getLast?.isSome := List.getLast?_isSome.mpr (by simp)
      obtain ⟨z, hz⟩ := Option.isSome_iff_exists.mp h
      show lastWins (y :: ys) x = (x :: y :: ys).getLast?.getD e
      rw [ih, List.getLast?_cons_cons, hz]
      simp

theorem isPrefixOf_eq_true_iff (n h : List Char) :
    n.isPrefixOf h = true ↔ ∃ r, h = n ++ r := by
  induction n generalizing h with
  | nil => simp [List.isPrefixOf]
  | cons a t ih =>
    cases h with
    | nil => simp [List.isPrefixOf]
    | cons b u =>
      simp only [List.isPrefixOf, Bool.and_eq_true, beq_iff_eq, ih, List.cons_append,
        List.cons.injEq]
      constructor
      · rintro ⟨rfl, r, rfl⟩; exact ⟨r, rfl, rfl⟩
      · rintro ⟨r, rfl, rfl⟩; exact ⟨rfl, r, rfl⟩

theorem occursIn_iff (n h : List Char) :
    occursIn n h = true ↔ ∃ l r, h = l ++ n ++ r := by
  induction h with
  | nil =>
    simp only [occursIn, List.isEmpty_iff]
    constructor
    · rintro rfl; exact ⟨[], [], rfl⟩
    · rintro ⟨l, r, hr⟩
      rcases List.append_eq_nil.mp (List.append_eq_nil.mp hr.symm).1 with ⟨-, h2⟩
      exact h2
  | cons c t ih =>
    simp only [occursIn, Bool.or_eq_true, isPrefixOf_eq_true_iff, ih]
    constructor
    · rintro (⟨r, hr⟩ | ⟨l, r, hr⟩)
      · exact ⟨[], r, by simp [hr]⟩
      · exact ⟨c :: l, r, by simp [hr]⟩
    · rintro ⟨l, r, hr⟩
      cases l with
      | nil => exact Or.inl ⟨r, by simpa using hr⟩
      | cons x xs =>
        rcases List.cons.injEq .. ▸ hr with ⟨rfl, ht⟩
        exact Or.inr ⟨xs, r, by simpa using ht⟩

theorem foldl_stepAff (author : AuthorEntry) (l : List AffiliationInfo) (acc : ExtractAcc) :
    l.foldl (stepAff author) acc =
      { names := acc.names ++
          ((affTextsOf l).filter is_non_academic_affiliation).map fun _ => authorName author
        affs := acc.affs ++ (affTextsOf l).filter is_non_academic_affiliation
        email := lastWins
          (((affTextsOf l).filter is_non_academic_affiliation).filterMap findEmail)
          acc.email } := by
  induction l generalizing acc with
  | nil => simp [affTextsOf, lastWins]
  | cons i t ih =>
    rw [List.foldl_cons, ih]
    cases hcl : is_non_academic_affiliation (i.affiliation.getD "") with
    | false =>
      have hs : stepAff author acc i = acc := by simp [stepAff, hcl]
      rw [hs]
      simp [affTextsOf, List.filter_cons, hcl]
    | true =>
      cases hm : findEmail (i.affiliation.getD "") with
      | none =>
        have hs : stepAff author acc i =
            { names := acc.names ++ [authorName author]
              affs := acc.affs ++ [i.affiliation.getD ""]
              email := acc.email } := by simp [stepAff, hcl, hm]
        rw [hs]
        simp [affTextsOf, List.filter_cons, hcl, hm, lastWins, List.append_assoc]
      | some m =>
        have hs : stepAff author acc i =
            { names := acc.names ++ [authorName author]
              affs := acc.affs ++ [i.affiliation.getD ""]
              email := m } := by simp [stepAff, hcl, hm]
        rw [hs]
        simp [affTextsOf, List.filter_cons, hcl, hm, lastWins, List.append_assoc]

theorem foldl_processAuthor (authors : List AuthorEntry) (acc : ExtractAcc) :
    authors.foldl processAuthor acc =
      { names := acc.names ++ authors.flatMap fun a => (qualAffsOf a).map fun _ => authorName a
        affs := acc.affs ++ authors.flatMap qualAffsOf
        email := lastWins ((authors.flatMap qualAffsOf).filterMap findEmail) acc.email } := by
  induction authors generalizing acc with
  | nil => simp [lastWins]
  | cons a t ih =>
    rw [List.foldl_cons, ih]
    cases ha : a.affiliationInfo with
    | none =>
      have hpa : processAuthor acc a = acc := by simp [processAuthor, ha]
      rw [hpa]
      simp [qualAffsOf, authorAffTexts, ha, affTextsOf]
    | some l =>
      have hpa : processAuthor acc a = l.foldl (stepAff a) acc := by
        simp [processAuthor, ha]
      rw [hpa, foldl_stepAff]
      have hq : qualAffsOf a = (affTextsOf l).filter is_non_academic_affiliation := by
        simp [qualAffsOf, authorAffTexts, ha]
      simp [hq, List.filterMap_append, lastWins_append, List.append_assoc]

theorem extract_names (raw : RawCitation) (pmid : String) :
    (fetch_paper_details raw pmid).nonAcademicAuthors = (allQualNames raw).dedup := by
  simp [fetch_paper_details, foldl_processAuthor, allQualNames]

theorem extract_affs (raw : RawCitation) (pmid : String) :
    (fetch_paper_details raw pmid).companyAffiliations = (allQualAffs raw).dedup := by
  simp [fetch_paper_details, foldl_processAuthor, allQualAffs]

theorem extract_email (raw : RawCitation) (pmid : String) :
    (fetch_paper_details raw pmid).correspondingEmail =
      lastWins ((allQualAffs raw).filterMap findEmail) "" := by
  simp [fetch_paper_details, foldl_processAuthor, allQualAffs]

theorem summarize_eq_some {fetchSvc : String → Option RawCitation} {pmid : String}
    {p : PaperSummary} (h : summarize fetchSvc pmid = some p) :
    ∃ raw, fetchSvc pmid = some raw ∧ p = fetch_paper_details raw pmid ∧
      joinComma p.nonAcademicAuthors ≠ "" := by
  cases hf : fetchSvc pmid with
  | none => simp [summarize, hf] at h
  | some raw =>
    simp only [summarize, hf] at h
    by_cases hj : joinComma (fetch_paper_details raw pmid).nonAcademicAuthors = ""
    · rw [if_pos hj] at h
      exact Option.noConfusion h
    · rw [if_neg hj] at h
      obtain rfl := (Option.some_inj.mp h).symm
      exact ⟨raw, rfl, rfl, hj⟩

theorem mem_fetch_papers {searchSvc : String → List String}
    {fetchSvc : String → Option RawCitation} {query : String} {debug : Bool}
    {p : PaperSummary} (hp : p ∈ (fetch_papers searchSvc fetchSvc query debug).2) :
    ∃ raw pmid, fetchSvc pmid = some raw ∧ p = fetch_paper_details raw pmid ∧
      joinComma p.nonAcademicAuthors ≠ "" := by
  simp only [fetch_papers, List.mem_filterMap] at hp
  obtain ⟨pmid, -, hs⟩ := hp
  obtain ⟨raw, hf, hpe, hj⟩ := summarize_eq_some hs
  exact ⟨raw, pmid, hf, hpe, hj⟩

theorem ne_nil_of_joinComma_ne {l : List String} (h : joinComma l ≠ "") : l ≠ [] :=
  fun he => h (he ▸ rfl)

theorem names_nil_iff_affs_nil (raw : RawCitation) (pmid : String) :
    (fetch_paper_details raw pmid).nonAcademicAuthors = [] ↔
      (fetch_paper_details raw pmid).companyAffiliations = [] := by
  rw [extract_names, extract_affs, List.dedup_eq_nil, List.dedup_eq_nil,
    allQualNames, allQualAffs]
  simp [List.flatMap_eq_nil_iff, List.map_eq_nil_iff]

theorem email_empty_of_names_nil {raw : RawCitation} {pmid : String}
    (h : (fetch_paper_details raw pmid).nonAcademicAuthors = []) :
    (fetch_paper_details raw pmid).correspondingEmail = "" := by
  have haffs : (fetch_paper_details raw pmid).companyAffiliations = [] :=
    (names_nil_iff_affs_nil raw pmid).mp h
  rw [extract_affs] at haffs
  have h2 : allQualAffs raw = [] := (List.dedup_eq_nil _).mp haffs
  rw [extract_email, h2]
  rfl

theorem summarize_pubmedID {fetchSvc : String → Option RawCitation} {pmid : String}
    {p : PaperSummary} (h : summarize fetchSvc pmid = some p) :
    p.pubmedID = pmid := by
  obtain ⟨raw, -, rfl, -⟩ := summarize_eq_some h
  rfl

theorem map_pubmedID_filterMap (fetchSvc : String → Option RawCitation) (ids : List String) :
    ((ids.filterMap (summarize fetchSvc)).map PaperSummary.pubmedID) =
      ids.filter fun i => (summarize fetchSvc i).isSome := by
  induction ids with
  | nil => rfl
  | cons i t ih =>
    cases h : summarize fetchSvc i with
    | none => simp [List.filterMap_cons_none h, List.filter_cons, h, ih]
    | some p =>
      simp [List.filterMap_cons_some h, List.filter_cons, h, ih, summarize_pubmedID h]

/-! ### Claim theorems -/

/-- C1, counterexample: for the record `cexC1` the first email discovered in
affiliation scanning order is `"a@x.com"` (both affiliations classify
non-academic), yet the extraction records `"b@y.com"` — the last match, not
the first, so later-scanned matches do overwrite the recorded email. -/
theorem C1_counterexample :
    is_non_academic_affiliation "Acme Pharma, a@x.com" = true ∧
    is_non_academic_affiliation "Beta Biotech, b@y.com" = true ∧
    ((allQualAffs cexC1).filterMap findEmail).head? = some "a@x.com" ∧
    (fetch_paper_details cexC1 "1").correspondingEmail = "b@y.com" ∧
    (fetch_paper_details cexC1 "1").correspondingEmail ≠ "a@x.com" := by
  refine ⟨?_, ?_, ?_, ?_, ?_⟩ <;> decide

/-- C1, amended: the extraction records as correspondingEmail the LAST email
discovered in affiliation scanning order among affiliations classified
non-academic (later matches overwrite earlier ones), or the empty string
when no non-academic affiliation contains an email. -/
theorem C1_email_last_match (raw : RawCitation) (pmid : String) :
    (fetch_paper_details raw pmid).correspondingEmail =
      ((allQualAffs raw).filterMap findEmail).getLast?.getD "" := by
  rw [extract_email, lastWins_eq_getLast?]

/-- C2: the classifier returns true iff at least one non-academic keyword
occurs as a substring of the lowercased text and no academic keyword occurs
anywhere in it; the empty string classifies false. -/
theorem C2_classifier_iff (s : String) :
    (is_non_academic_affiliation s = true ↔
      ((∃ k ∈ non_academic_keywords, ∃ l r, (strLower s).data = l ++ k.data ++ r) ∧
        ∀ k ∈ academic_keywords, ¬ ∃ l r, (strLower s).data = l ++ k.data ++ r)) ∧
    is_non_academic_affiliation "" = false := by
  refine ⟨?_, by decide⟩
  unfold is_non_academic_affiliation
  simp only [Bool.and_eq_true, Bool.not_eq_true', List.any_eq_true, List.any_eq_false,
    strContainsSub, occursIn_iff]

/-- C3: every paper summary surfaced by the pipeline has a non-empty
nonAcademicAuthors set; summaries without non-academic authors are never
returned to the caller. -/
theorem C3_surfaced_nonempty (searchSvc : String → List String)
    (fetchSvc : String → Option RawCitation) (query : String) (debug : Bool)
    (p : PaperSummary) (hp : p ∈ (fetch_papers searchSvc fetchSvc query debug).2) :
    p.nonAcademicAuthors ≠ [] := by
  obtain ⟨raw, pmid, -, -, hj⟩ := mem_fetch_papers hp
  exact ne_nil_of_joinComma_ne hj

/-- C3 witness: with a search returning one identifier and a fetch
delivering `goodRaw`, the extracted summary is surfaced and has a non-empty
author set. -/
theorem C3_witness :
    fetch_paper_details goodRaw "1" ∈ (fetch_papers searchOne fetchGood "q" false).2 ∧
    (fetch_paper_details goodRaw "1").nonAcademicAuthors ≠ [] :=
  ⟨by decide, C3_surfaced_nonempty searchOne fetchGood "q" false _ (by decide)⟩

/-- C4: with search order `ids1 ++ b :: ids2` and the fetch of `b` failing,
the pipeline returns the pubmed identifiers of exactly the qualifying
successful identifiers in the search's relative order, and processing the
whole sequence equals processing `ids1` then `ids2` — the failing
identifier is skipped and never aborts the batch. -/
theorem C4_partial_failure (fetchSvc : String → Option RawCitation)
    (query : String) (debug : Bool) (ids1 ids2 : List String) (b : String)
    (hb : fetchSvc b = none) :
    ((fetch_papers (fun _ => ids1 ++ b :: ids2) fetchSvc query debug).2.map
        PaperSummary.pubmedID
      = (ids1 ++ b :: ids2).filter fun i => (summarize fetchSvc i).isSome) ∧
    (fetch_papers (fun _ => ids1 ++ b :: ids2) fetchSvc query debug).2 =
      (fetch_papers (fun _ => ids1) fetchSvc query debug).2 ++
        (fetch_papers (fun _ => ids2) fetchSvc query debug).2 := by
  have hsb : summarize fetchSvc b = none := by simp [summarize, hb]
  constructor
  · simp [fetch_papers, map_pubmedID_filterMap]
  · simp [fetch_papers, List.filterMap_append, List.filterMap_cons_none hsb]

/-- C4 witness: search order A, B, C with B failing yields exactly the
summaries of A and C, in that order. -/
theorem C4_witness :
    (fetch_papers (fun _ => ["A"] ++ "B" :: ["C"]) fetchSkipB "q" false).2 =
      (fetch_papers (fun _ => ["A"]) fetchSkipB "q" false).2 ++
        (fetch_papers (fun _ => ["C"]) fetchSkipB "q" false).2 ∧
    (fetch_papers (fun _ => ["A"] ++ "B" :: ["C"]) fetchSkipB "q" false).2 =
      [fetch_paper_details goodRaw "A", fetch_paper_details goodRaw "C"] :=
  ⟨(C4_partial_failure fetchSkipB "q" false ["A"] ["C"] "B" (by decide)).2, by decide⟩

/-- C5: the classifier is case-insensitive — any two strings with the same
lowercasing classify identically. -/
theorem C5_case_insensitive (s t : String) (h : strLower s = strLower t) :
    is_non_academic_affiliation s = is_non_academic_affiliation t := by
  unfold is_non_academic_affiliation
  rw [h]

/-- C5 witness: `"BIOTECH INC"` and `"biotech inc"` classify identically. -/
theorem C5_witness :
    strLower "BIOTECH INC" = strLower "biotech inc" ∧
    is_non_academic_affiliation "BIOTECH INC" = is_non_academic_affiliation "biotech inc" :=
  ⟨by decide, C5_case_insensitive "BIOTECH INC" "biotech inc" (by decide)⟩

/-- C6: the nonAcademicAuthors and companyAffiliations fields of every
extracted summary contain no duplicate string values, and every affiliation
string present in companyAffiliations occurs exactly once. -/
theorem C6_dedup (raw : RawCitation) (pmid : String) :
    (fetch_paper_details raw pmid).nonAcademicAuthors.Nodup ∧
    (fetch_paper_details raw pmid).companyAffiliations.Nodup ∧
    ∀ s ∈ (fetch_paper_details raw pmid).companyAffiliations,
      (fetch_paper_details raw pmid).companyAffiliations.count s = 1 := by
  refine ⟨?_, ?_, fun s hs => List.count_eq_one_of_mem ?_ hs⟩
  · rw [extract_names]; exact List.nodup_dedup _
  · rw [extract_affs]; exact List.nodup_dedup _
  · rw [extract_affs]; exact List.nodup_dedup _

/-- C6 witness: two authors with the identical affiliation string yield a
companyAffiliations set with exactly one entry for that string. -/
theorem C6_witness :
    "Acme Pharma Inc, Cambridge" ∈ (fetch_paper_details twoAuthorsRaw "7").companyAffiliations ∧
    (fetch_paper_details twoAuthorsRaw "7").companyAffiliations.count
      "Acme Pharma Inc, Cambridge" = 1 :=
  ⟨by decide, (C6_dedup twoAuthorsRaw "7").2.2 _ (by decide)⟩

/-- C7: the publication date string is always the year, month and day
segments joined by the fixed separator `"-"`, each segment empty when the
component is missing; when the whole PubDate is absent it renders `"--"`. -/
theorem C7_date_format (raw : RawCitation) (pmid : String) :
    (fetch_paper_details raw pmid).publicationDate =
      rawYear raw ++ "-" ++ rawMonth raw ++ "-" ++ rawDay raw ∧
    (raw.pubDate = none → (fetch_paper_details raw pmid).publicationDate = "--") := by
  constructor
  · rfl
  · intro h
    simp [fetch_paper_details, h]

/-- C7 witness: a record with no PubDate at all renders the three-segment
date string `"--"`. -/
theorem C7_witness :
    (fetch_paper_details noDateRaw "5").publicationDate =
      rawYear noDateRaw ++ "-" ++ rawMonth noDateRaw ++ "-" ++ rawDay noDateRaw ∧
    (fetch_paper_details noDateRaw "5").publicationDate = "--" :=
  ⟨(C7_date_format noDateRaw "5").1, (C7_date_format noDateRaw "5").2 rfl⟩

/-- C8: extraction is deterministic and idempotent — two runs on the same
raw citation and identifier agree field for field, with the set-valued
fields compared as finite sets of strings. -/
theorem C8_deterministic (raw : RawCitation) (pmid : String) :
    let p1 := fetch_paper_details raw pmid
    let p2 := fetch_paper_details raw pmid
    p1.pubmedID = p2.pubmedID ∧ p1.title = p2.title ∧
    p1.publicationDate = p2.publicationDate ∧
    p1.nonAcademicAuthors.toFinset = p2.nonAcademicAuthors.toFinset ∧
    p1.companyAffiliations.toFinset = p2.companyAffiliations.toFinset ∧
    p1.correspondingEmail = p2.correspondingEmail :=
  ⟨rfl, rfl, rfl, rfl, rfl, rfl⟩

/-- C9: the debug flag does not influence the returned summaries — for every
behaviour of the search and fetch services the paper list is identical for
any two flag values; the flag only selects the logging level. -/
theorem C9_debug_irrelevant (searchSvc : String → List String)
    (fetchSvc : String → Option RawCitation) (query : String) :
    (∀ d₁ d₂ : Bool,
      (fetch_papers searchSvc fetchSvc query d₁).2 =
        (fetch_papers searchSvc fetchSvc query d₂).2) ∧
    (fetch_papers searchSvc fetchSvc query true).1 = LogLevel.debug ∧
    (fetch_papers searchSvc fetchSvc query false).1 = LogLevel.info :=
  ⟨fun _ _ => rfl, rfl, rfl⟩

/-- C10: in every extracted summary, nonAcademicAuthors is empty iff
companyAffiliations is empty; an empty nonAcademicAuthors forces an empty
correspondingEmail; and every summary the pipeline surfaces has a non-empty
companyAffiliations set. -/
theorem C10_fields_linked (raw : RawCitation) (pmid : String) :
    ((fetch_paper_details raw pmid).nonAcademicAuthors = [] ↔
      (fetch_paper_details raw pmid).companyAffiliations = []) ∧
    ((fetch_paper_details raw pmid).nonAcademicAuthors = [] →
      (fetch_paper_details raw pmid).correspondingEmail = "") ∧
    ∀ (searchSvc : String → List String) (fetchSvc : String → Option RawCitation)
      (query : String) (debug : Bool) (p : PaperSummary),
        p ∈ (fetch_papers searchSvc fetchSvc query debug).2 →
          p.companyAffiliations ≠ [] := by
  refine ⟨names_nil_iff_affs_nil raw pmid, fun h => email_empty_of_names_nil h, ?_⟩
  intro searchSvc fetchSvc query debug p hp
  obtain ⟨raw', pmid', -, rfl, hj⟩ := mem_fetch_papers hp
  have hn := ne_nil_of_joinComma_ne hj
  exact fun he => hn ((names_nil_iff_affs_nil raw' pmid').mpr he)

/-- C10 witness: an academically-affiliated-only record has all three
linked fields empty, and a surfaced summary has non-empty company
affiliations. -/
theorem C10_witness :
    ((fetch_paper_details acadRaw "3").nonAcademicAuthors = [] ↔
      (fetch_paper_details acadRaw "3").companyAffiliations = []) ∧
    (fetch_paper_details acadRaw "3").correspondingEmail = "" ∧
    (fetch_paper_details goodRaw "1").companyAffiliations ≠ [] :=
  ⟨(C10_fields_linked acadRaw "3").1,
    (C10_fields_linked acadRaw "3").2.1 (by decide),
    (C10_fields_linked goodRaw "1").2.2 searchOne fetchGood "q" false
      (fetch_paper_details goodRaw "1") (by decide)⟩
